import Mathlib

/-!
Verification of the lines-changed grouping and aggregation engine.

The development shallowly embeds the classifier/aggregator
(src/utils/calculateDiffSummary.ts), the configuration parser
(src/utils/parseFileGroups.ts, extended by the global ignore-whitespace
flag its tests and caller use) and the data model (src/utils/types.ts).
The glob matcher (minimatch with dot:true) and the YAML loader (js-yaml)
are external collaborators and are taken as function parameters.
-/

namespace LinesChanged

/-- One changed file as delivered by the listing collaborator
(src/utils/types.ts, interface FileChange). -/
structure FileChange where
  filename : String
  additions : Nat
  deletions : Nat
  changes : Nat
  status : String
deriving DecidableEq

/-- A configured file group (src/utils/types.ts, interface FileGroup). -/
structure FileGroup where
  label : String
  patterns : List String
  countTowardMetric : Bool
  ignoreWhitespace : Bool
deriving DecidableEq

/-- The implicit catch-all group (src/utils/types.ts, interface
DefaultGroupConfig).  In the source its countTowardMetric field has the
literal type true, so it carries no information and is represented by the
projection GroupRef.countTowardMetric instead of a field. -/
structure DefaultGroupConfig where
  label : String
  ignoreWhitespace : Bool
deriving DecidableEq

/-- Complete file groups configuration (src/utils/types.ts). -/
structure FileGroupsConfig where
  groups : List FileGroup
  defaultGroup : DefaultGroupConfig
deriving DecidableEq

/-- The union FileGroup | DefaultGroupConfig used in GroupedFiles.group. -/
inductive GroupRef where
  | defined (g : FileGroup)
  | default (d : DefaultGroupConfig)
deriving DecidableEq

/-- Display label of either kind of group. -/
def GroupRef.label : GroupRef → String
  | .defined g => g.label
  | .default d => d.label

/-- Counting flag of either kind of group; the flag of the default group is the
literal true in the source type. -/
def GroupRef.countTowardMetric : GroupRef → Bool
  | .defined g => g.countTowardMetric
  | .default _ => true

/-- Whitespace flag of either kind of group. -/
def GroupRef.ignoreWhitespace : GroupRef → Bool
  | .defined g => g.ignoreWhitespace
  | .default d => d.ignoreWhitespace

/-- Whitespace-adjusted counts for one file (GitLineCounts of
getGitWhitespaceDiff). -/
structure GitLineCounts where
  additions : Nat
  deletions : Nat
deriving DecidableEq

/-- The whitespaceAdjustedCounts Map, viewed as a lookup function; the
surrounding Option models the `Map | null | undefined` parameter type. -/
abbrev WsLookup := String → Option GitLineCounts

/-- The glob matcher: minimatch(filename, pattern, dot:true), consumed as
an external black box.  minimatch returns a Bool for every string pattern
and never throws during matching, so it is modelled as a total function;
an invalid pattern is one that matches no filename. -/
abbrev Matcher := String → String → Bool

/-- One group together with the files it claimed and its aggregated
metrics (src/utils/types.ts, interface GroupedFiles).  The two optional
whitespace fields are separate options exactly as in the source. -/
structure GroupedFiles where
  group : GroupRef
  files : List FileChange
  addedLines : Nat
  removedLines : Nat
  whitespaceOnlyAddedLines : Option Int
  whitespaceOnlyRemovedLines : Option Int
deriving DecidableEq

/-- Summary of diff calculations (src/utils/types.ts, interface DiffSummary). -/
structure DiffSummary where
  addedLines : Nat
  removedLines : Nat
  uncountedAddedLines : Nat
  uncountedRemovedLines : Nat
  totalFiles : Nat
  groupedFiles : List GroupedFiles
deriving DecidableEq

/-- group.patterns.some(pattern => minimatch(file.filename, pattern, dot))
(calculateDiffSummary.ts lines 44-46). -/
def matchesGroup (matcher : Matcher) (g : FileGroup) (filename : String) : Bool :=
  g.patterns.any (fun pattern => matcher filename pattern)

/-- Index of the first group whose patterns match the filename, none when
no group matches: the classification loop of calculateDiffSummary
(lines 38-59), first match wins. -/
def firstMatch (matcher : Matcher) (groups : List FileGroup) (filename : String) : Option Nat :=
  match groups with
  | [] => none
  | g :: rest =>
    if matchesGroup matcher g filename then some 0
    else (firstMatch matcher rest filename).map (· + 1)

/-- The bucket of files claimed by the group at position i.  The source
keys its groupFilesMap by object identity, which for the iterated
config.groups list is exactly the list position. -/
def groupFiles (matcher : Matcher) (groups : List FileGroup) (files : List FileChange)
    (i : Nat) : List FileChange :=
  files.filter (fun f => firstMatch matcher groups f.filename == some i)

/-- The bucket for the default group: files matching no group (lines 56-58). -/
def defaultFiles (matcher : Matcher) (groups : List FileGroup)
    (files : List FileChange) : List FileChange :=
  files.filter (fun f => (firstMatch matcher groups f.filename).isNone)

/-- Result record of aggregateGroupLines. -/
structure AggResult where
  added : Nat
  removed : Nat
  rawAdded : Nat
  rawRemoved : Nat
deriving DecidableEq

/-- aggregateGroupLines (calculateDiffSummary.ts lines 166-190). -/
def aggregateGroupLines (files : List FileChange) (ignoreWhitespace : Bool)
    (whitespaceAdjustedCounts : Option WsLookup) : AggResult :=
  files.foldl
    (fun acc file =>
      let adjusted : Option GitLineCounts :=
        match whitespaceAdjustedCounts with
        | some lookup => if ignoreWhitespace then lookup file.filename else none
        | none => none
      { added := acc.added + (match adjusted with | some a => a.additions | none => file.additions)
        removed := acc.removed + (match adjusted with | some a => a.deletions | none => file.deletions)
        rawAdded := acc.rawAdded + file.additions
        rawRemoved := acc.rawRemoved + file.deletions })
    { added := 0, removed := 0, rawAdded := 0, rawRemoved := 0 }

/-- Builds one GroupedFiles entry: the default-group block (lines 72-97)
and the defined-group block (lines 113-138), which are textually identical
in the source up to the group record used. -/
def mkGroupEntry (group : GroupRef) (files : List FileChange)
    (whitespaceAdjustedCounts : Option WsLookup) : GroupedFiles :=
  let agg := aggregateGroupLines files group.ignoreWhitespace whitespaceAdjustedCounts
  let base : GroupedFiles :=
    { group := group, files := files, addedLines := agg.added, removedLines := agg.removed,
      whitespaceOnlyAddedLines := none, whitespaceOnlyRemovedLines := none }
  if group.ignoreWhitespace && whitespaceAdjustedCounts.isSome then
    let wsAdded : Int := (agg.rawAdded : Int) - (agg.added : Int)
    let wsRemoved : Int := (agg.rawRemoved : Int) - (agg.removed : Int)
    if wsAdded > 0 ∨ wsRemoved > 0 then
      { base with whitespaceOnlyAddedLines := some wsAdded,
                  whitespaceOnlyRemovedLines := some wsRemoved }
    else base
  else base

/-- Accumulator of the defined-group loop: the growing groupedFiles list
and the four running totals (lines 63-67). -/
structure BuildState where
  entries : List GroupedFiles
  addedLines : Nat
  removedLines : Nat
  uncountedAddedLines : Nat
  uncountedRemovedLines : Nat

/-- Position-indexed view of a group list, 0-based from n: models the
iteration over config.groups with its identity-keyed bucket map. -/
def enumFrom (n : Nat) : List FileGroup → List (Nat × FileGroup)
  | [] => []
  | g :: rest => (n, g) :: enumFrom (n + 1) rest

/-- Body of the defined-group loop (calculateDiffSummary.ts lines 107-149). -/
def processGroup (matcher : Matcher) (files : List FileChange) (groups : List FileGroup)
    (ws : Option WsLookup) (st : BuildState) (ig : Nat × FileGroup) : BuildState :=
  let gfs := groupFiles matcher groups files ig.1
  if gfs.isEmpty then st
  else
    let entry := mkGroupEntry (.defined ig.2) gfs ws
    if ig.2.countTowardMetric then
      { st with entries := st.entries ++ [entry]
                addedLines := st.addedLines + entry.addedLines
                removedLines := st.removedLines + entry.removedLines }
    else
      { st with entries := st.entries ++ [entry]
                uncountedAddedLines := st.uncountedAddedLines + entry.addedLines
                uncountedRemovedLines := st.uncountedRemovedLines + entry.removedLines }

/-- calculateDiffSummary (src/utils/calculateDiffSummary.ts lines 23-159). -/
def calculateDiffSummary (matcher : Matcher) (files : List FileChange)
    (config : FileGroupsConfig) (whitespaceAdjustedCounts : Option WsLookup) : DiffSummary :=
  let dFiles := defaultFiles matcher config.groups files
  let init : BuildState :=
    if dFiles.isEmpty then
      { entries := [], addedLines := 0, removedLines := 0,
        uncountedAddedLines := 0, uncountedRemovedLines := 0 }
    else
      let entry := mkGroupEntry (.default config.defaultGroup) dFiles whitespaceAdjustedCounts
      { entries := [entry], addedLines := entry.addedLines, removedLines := entry.removedLines,
        uncountedAddedLines := 0, uncountedRemovedLines := 0 }
  let st := (enumFrom 0 config.groups).foldl
    (processGroup matcher files config.groups whitespaceAdjustedCounts) init
  { addedLines := st.addedLines, removedLines := st.removedLines,
    uncountedAddedLines := st.uncountedAddedLines,
    uncountedRemovedLines := st.uncountedRemovedLines,
    totalFiles := files.length, groupedFiles := st.entries }

/-- The entry the defined-group loop would produce for the position-group
pair ig, none when the bucket is empty (the skip at lines 109-111). -/
def entryOf? (matcher : Matcher) (files : List FileChange) (groups : List FileGroup)
    (ws : Option WsLookup) (ig : Nat × FileGroup) : Option GroupedFiles :=
  let gfs := groupFiles matcher groups files ig.1
  if gfs.isEmpty then none else some (mkGroupEntry (.defined ig.2) gfs ws)

/-- The default-group part of the output list (lines 69-104). -/
def defaultEntryList (matcher : Matcher) (files : List FileChange)
    (config : FileGroupsConfig) (ws : Option WsLookup) : List GroupedFiles :=
  let dFiles := defaultFiles matcher config.groups files
  if dFiles.isEmpty then []
  else [mkGroupEntry (.default config.defaultGroup) dFiles ws]

/-- The defined-group part of the output list (lines 106-149). -/
def definedEntryList (matcher : Matcher) (files : List FileChange)
    (config : FileGroupsConfig) (ws : Option WsLookup) : List GroupedFiles :=
  (enumFrom 0 config.groups).filterMap (entryOf? matcher files config.groups ws)

/-- Sum of reported added lines over the entries whose group counts toward
the metric. -/
def countedAdded (es : List GroupedFiles) : Nat :=
  ((es.filter (fun e => e.group.countTowardMetric)).map GroupedFiles.addedLines).sum

/-- Sum of reported removed lines over the counted entries. -/
def countedRemoved (es : List GroupedFiles) : Nat :=
  ((es.filter (fun e => e.group.countTowardMetric)).map GroupedFiles.removedLines).sum

/-- Sum of reported added lines over the uncounted entries. -/
def uncountedAddedL (es : List GroupedFiles) : Nat :=
  ((es.filter (fun e => !e.group.countTowardMetric)).map GroupedFiles.addedLines).sum

/-- Sum of reported removed lines over the uncounted entries. -/
def uncountedRemovedL (es : List GroupedFiles) : Nat :=
  ((es.filter (fun e => !e.group.countTowardMetric)).map GroupedFiles.removedLines).sum

/-- The per-file substitution the aggregation loop performs: the adjusted
counts when the group ignores whitespace and the lookup has the file, the
raw counts otherwise (calculateDiffSummary.ts lines 180-186). -/
def adjustedFor (ignoreWhitespace : Bool) (ws : Option WsLookup) (f : FileChange) :
    Option GitLineCounts :=
  match ws with
  | some lookup => if ignoreWhitespace then lookup f.filename else none
  | none => none

/-- Additions reported for one file after the whitespace substitution. -/
def reportedAdditions (ignoreWhitespace : Bool) (ws : Option WsLookup) (f : FileChange) : Nat :=
  match adjustedFor ignoreWhitespace ws f with
  | some a => a.additions
  | none => f.additions

/-- Deletions reported for one file after the whitespace substitution. -/
def reportedDeletions (ignoreWhitespace : Bool) (ws : Option WsLookup) (f : FileChange) : Nat :=
  match adjustedFor ignoreWhitespace ws f with
  | some a => a.deletions
  | none => f.deletions

/-- Matcher for the concrete whitespace example: matches nothing. -/
def c2m : Matcher := fun _ _ => false

/-- Concrete file with 10 raw additions and 5 raw deletions. -/
def c2file : FileChange :=
  { filename := "a.ts", additions := 10, deletions := 5, changes := 15, status := "modified" }

/-- Lookup assigning a.ts 8 whitespace-adjusted additions and the same 5
deletions. -/
def c2lookup : WsLookup := fun n =>
  if n = "a.ts" then some { additions := 8, deletions := 5 } else none

/-- Configuration with no defined groups and a whitespace-ignoring default
group. -/
def c2cfg : FileGroupsConfig :=
  { groups := [], defaultGroup := { label := "Changed", ignoreWhitespace := true } }

/-- The single entry calculateDiffSummary produces on the c2 example. -/
def c2entry : GroupedFiles :=
  { group := .default { label := "Changed", ignoreWhitespace := true },
    files := [c2file], addedLines := 8, removedLines := 5,
    whitespaceOnlyAddedLines := some 2, whitespaceOnlyRemovedLines := some 0 }

/-- Everything an output entry reports except the echoed pattern list of
its group record: label, counting flag, files and all four line metrics. -/
def entryData (e : GroupedFiles) :
    String × Bool × List FileChange × Nat × Nat × Option Int × Option Int :=
  (e.group.label, e.group.countTowardMetric, e.files, e.addedLines, e.removedLines,
    e.whitespaceOnlyAddedLines, e.whitespaceOnlyRemovedLines)

/-- Two group records that agree on everything except possibly patterns. -/
def sameGroupData (g₁ g₂ : FileGroup) : Prop :=
  g₁.label = g₂.label ∧ g₁.countTowardMetric = g₂.countTowardMetric ∧
    g₁.ignoreWhitespace = g₂.ignoreWhitespace

/-- A parsed YAML value as delivered by the external js-yaml loader. -/
inductive RawValue where
  | str (s : String)
  | bool (b : Bool)
  | num (n : Int)
  | null
  | list (xs : List RawValue)
  | obj (fields : List (String × RawValue))

/-- Executable model of the JS String.prototype.trim the parser applies
to labels, patterns and the whole raw input: drops leading and trailing
whitespace characters. -/
def jsTrim (s : String) : String :=
  ⟨((s.data.dropWhile Char.isWhitespace).reverse.dropWhile Char.isWhitespace).reverse⟩

/-- Field access on the loosely typed parsed value: raw[key] is undefined
(none) unless the value is an object carrying that key. -/
def getField (raw : RawValue) (key : String) : Option RawValue :=
  match raw with
  | .obj fields => (fields.find? (fun kv => kv.1 == key)).map (fun kv => kv.2)
  | _ => none

/-- Error text of parseFileGroups.ts lines 57-61. -/
def labelErrMsg (groupNum : Nat) : String :=
  "Group " ++ toString groupNum ++ ": \x27label\x27 is required and must be a non-empty string"

/-- Error text of parseFileGroups.ts lines 64-68. -/
def patternsErrMsg (groupNum : Nat) (label : String) : String :=
  "Group " ++ toString groupNum ++ " (\"" ++ label ++
    "\"): \x27patterns\x27 is required and must be a non-empty array of glob patterns"

/-- Error text of parseFileGroups.ts lines 73-77. -/
def patternItemErrMsg (groupNum : Nat) (label : String) (j : Nat) : String :=
  "Group " ++ toString groupNum ++ " (\"" ++ label ++ "\"): pattern at index " ++
    toString j ++ " must be a non-empty string"

/-- Error text of parseFileGroups.ts lines 84-88. -/
def countErrMsg (groupNum : Nat) (label : String) : String :=
  "Group " ++ toString groupNum ++ " (\"" ++ label ++
    "\"): \x27count\x27 must be a boolean (true or false)"

/-- Error text of parseFileGroups.ts lines 95-99. -/
def ignoreWsErrMsg (groupNum : Nat) (label : String) : String :=
  "Group " ++ toString groupNum ++ " (\"" ++ label ++
    "\"): \x27ignore-whitespace\x27 must be a boolean (true or false)"

/-- Error text of parseFileGroups.ts lines 40-47. -/
def arrayErrMsg : String :=
  "file-groups must be a YAML array of group definitions. Example:\n- label: \"Source\"\n  patterns:\n    - \"src/**/*.ts\"\n  count: true"

/-- The per-pattern validation loop (parseFileGroups.ts lines 70-79):
every entry must be a string that is non-empty after trim, and the
trimmed strings are collected. -/
def validatePatterns (groupNum : Nat) (label : String) :
    Nat → List RawValue → Except String (List String)
  | _, [] => .ok []
  | j, p :: rest =>
    match p with
    | .str s =>
      if jsTrim s = "" then .error (patternItemErrMsg groupNum label j)
      else
        match validatePatterns groupNum label (j + 1) rest with
        | .ok ps => .ok (jsTrim s :: ps)
        | .error e => .error e
    | _ => .error (patternItemErrMsg groupNum label j)

/-- The count validation (parseFileGroups.ts lines 81-90): must be a
boolean when present, defaults to true. -/
def parseCountField (groupNum : Nat) (label : String) (raw : RawValue) : Except String Bool :=
  match getField raw "count" with
  | none => .ok true
  | some (.bool b) => .ok b
  | some _ => .error (countErrMsg groupNum label)

/-- Modelled from the spec: the per-group ignore-whitespace validation
(parseFileGroups.ts lines 92-101) with its default taken from the global
ignore-whitespace flag passed to the parser, as spec 4.1 requires; the
snapshot under src/utils hard-codes the default false because it predates
the global flag (the current 3-argument parser is exercised only by its
tests and caller here). -/
def parseIgnoreWsField (groupNum : Nat) (label : String) (globalIgnoreWhitespace : Bool)
    (raw : RawValue) : Except String Bool :=
  match getField raw "ignore-whitespace" with
  | none => .ok globalIgnoreWhitespace
  | some (.bool b) => .ok b
  | some _ => .error (ignoreWsErrMsg groupNum label)

/-- Validation of one raw group definition (parseFileGroups.ts lines
52-109); groupNum is the 1-indexed group number used in messages. -/
def parseGroupAux (groupNum : Nat) (globalIgnoreWhitespace : Bool)
    (raw : RawValue) : Except String FileGroup :=
  match getField raw "label" with
  | some (.str label) =>
    if jsTrim label = "" then .error (labelErrMsg groupNum)
    else
      match getField raw "patterns" with
      | some (.list rawPatterns) =>
        if rawPatterns.isEmpty then .error (patternsErrMsg groupNum label)
        else
          match validatePatterns groupNum label 0 rawPatterns with
          | .error e => .error e
          | .ok patterns =>
            match parseCountField groupNum label raw with
            | .error e => .error e
            | .ok countTowardMetric =>
              match parseIgnoreWsField groupNum label globalIgnoreWhitespace raw with
              | .error e => .error e
              | .ok ignoreWhitespace =>
                .ok { label := jsTrim label, patterns := patterns,
                      countTowardMetric := countTowardMetric,
                      ignoreWhitespace := ignoreWhitespace }
      | _ => .error (patternsErrMsg groupNum label)
  | _ => .error (labelErrMsg groupNum)

/-- The loop over parsed group definitions (parseFileGroups.ts lines
50-109): i is the 0-based position of the next item. -/
def parseGroupsFrom (globalIgnoreWhitespace : Bool) :
    Nat → List RawValue → Except String (List FileGroup)
  | _, [] => .ok []
  | i, raw :: rest =>
    match parseGroupAux (i + 1) globalIgnoreWhitespace raw with
    | .error e => .error e
    | .ok g =>
      match parseGroupsFrom globalIgnoreWhitespace (i + 1) rest with
      | .error e => .error e
      | .ok gs => .ok (g :: gs)

/-- The default group record (parseFileGroups.ts lines 16-19 with the
ignoreWhitespace field of types.ts): the label falls back to "Changed"
when the caller passes an empty (falsy) string, and the whitespace flag
is set directly from the global flag. -/
def mkDefaultGroup (defaultGroupLabel : String) (globalIgnoreWhitespace : Bool) :
    DefaultGroupConfig :=
  { label := if defaultGroupLabel = "" then "Changed" else defaultGroupLabel,
    ignoreWhitespace := globalIgnoreWhitespace }

/-- Modelled from the spec: parseFileGroups with its third parameter, the
global ignore-whitespace flag, which the snapshot under src/utils lacks
(spec 4.1; the 3-argument form is the one its tests and the main caller
use, and the snapshot no longer typechecks against types.ts).  All
validation logic follows the snapshot (parseFileGroups.ts lines 12-115).
The external yaml.load is the yamlLoad parameter; a thrown YAML error is
its Except.error value. -/
def parseFileGroups (yamlLoad : String → Except String RawValue)
    (fileGroupsYaml : String) (defaultGroupLabel : String)
    (globalIgnoreWhitespace : Bool) : Except String FileGroupsConfig :=
  let defaultGroup := mkDefaultGroup defaultGroupLabel globalIgnoreWhitespace
  if jsTrim fileGroupsYaml = "" then .ok { groups := [], defaultGroup := defaultGroup }
  else
    match yamlLoad fileGroupsYaml with
    | .error msg => .error ("Invalid YAML in file-groups input: " ++ msg)
    | .ok parsed =>
      match parsed with
      | .list items =>
        match parseGroupsFrom globalIgnoreWhitespace 0 items with
        | .error e => .error e
        | .ok groups => .ok { groups := groups, defaultGroup := defaultGroup }
      | _ => .error arrayErrMsg

/-- Matcher for the small witness example: exact string comparison. -/
def c1m : Matcher := fun fn p => fn == p

/-- Witness group matching exactly a.ts. -/
def c1g : FileGroup :=
  { label := "A", patterns := ["a.ts"], countTowardMetric := true, ignoreWhitespace := false }

/-- Witness file a.ts with one addition and two deletions. -/
def c1f : FileChange :=
  { filename := "a.ts", additions := 1, deletions := 2, changes := 3, status := "modified" }

/-- Witness configuration with the single group. -/
def c1cfg : FileGroupsConfig :=
  { groups := [c1g], defaultGroup := { label := "Changed", ignoreWhitespace := false } }

/-- The entry the witness run produces. -/
def c1entry : GroupedFiles :=
  { group := .defined c1g, files := [c1f], addedLines := 1, removedLines := 2,
    whitespaceOnlyAddedLines := none, whitespaceOnlyRemovedLines := none }

/-- Group used in the C4 witness. -/
def c4g : FileGroup :=
  { label := "G", patterns := ["x", "y"], countTowardMetric := true, ignoreWhitespace := false }

/-- Default group used in the C4 witness. -/
def c4dg : DefaultGroupConfig := { label := "Changed", ignoreWhitespace := false }

/-- Raw group for the C3 witness: no per-group ignore-whitespace field. -/
def c3raw : RawValue := .obj [("label", .str "Src"), ("patterns", .list [.str "src/**"])]

/-- YAML loader stub returning the single-group list. -/
def c3yl : String → Except String RawValue := fun _ => .ok (.list [c3raw])

/-- The single group of the C3 witness configuration. -/
def c3grp : FileGroup :=
  { label := "Src", patterns := ["src/**"], countTowardMetric := true, ignoreWhitespace := true }

/-- The configuration the C3 witness run parses to. -/
def c3cfg : FileGroupsConfig :=
  { groups := [c3grp], defaultGroup := { label := "Changed", ignoreWhitespace := true } }

/-- Raw group for the C7 witness: count holds the string yes. -/
def c7raw : RawValue :=
  .obj [("label", .str "Source"), ("patterns", .list [.str "src/**"]), ("count", .str "yes")]

/-- YAML loader stub returning the single bad group. -/
def c7yl : String → Except String RawValue := fun _ => .ok (.list [c7raw])

/-- Recognised fields of the C10 witness group. -/
def c10front : List (String × RawValue) :=
  [("label", .str "Src"), ("patterns", .list [.str "s"])]

/-- The group the C10 witness parses to: defaults for both flags. -/
def c10g : FileGroup :=
  { label := "Src", patterns := ["s"], countTowardMetric := true, ignoreWhitespace := false }

lemma mkGroupEntry_group (gr : GroupRef) (fls : List FileChange) (ws : Option WsLookup) :
    (mkGroupEntry gr fls ws).group = gr := by
  simp only [mkGroupEntry]
  split
  · split <;> rfl
  · rfl

lemma mkGroupEntry_files (gr : GroupRef) (fls : List FileChange) (ws : Option WsLookup) :
    (mkGroupEntry gr fls ws).files = fls := by
  simp only [mkGroupEntry]
  split
  · split <;> rfl
  · rfl

lemma mkGroupEntry_addedLines (gr : GroupRef) (fls : List FileChange) (ws : Option WsLookup) :
    (mkGroupEntry gr fls ws).addedLines = (aggregateGroupLines fls gr.ignoreWhitespace ws).added := by
  simp only [mkGroupEntry]
  split
  · split <;> rfl
  · rfl

lemma mkGroupEntry_removedLines (gr : GroupRef) (fls : List FileChange) (ws : Option WsLookup) :
    (mkGroupEntry gr fls ws).removedLines = (aggregateGroupLines fls gr.ignoreWhitespace ws).removed := by
  simp only [mkGroupEntry]
  split
  · split <;> rfl
  · rfl

lemma countedAdded_cons (e : GroupedFiles) (es : List GroupedFiles) :
    countedAdded (e :: es) =
      if e.group.countTowardMetric then e.addedLines + countedAdded es else countedAdded es := by
  by_cases h : e.group.countTowardMetric <;> simp [countedAdded, List.filter_cons, h]

lemma countedRemoved_cons (e : GroupedFiles) (es : List GroupedFiles) :
    countedRemoved (e :: es) =
      if e.group.countTowardMetric then e.removedLines + countedRemoved es else countedRemoved es := by
  by_cases h : e.group.countTowardMetric <;> simp [countedRemoved, List.filter_cons, h]

lemma uncountedAddedL_cons (e : GroupedFiles) (es : List GroupedFiles) :
    uncountedAddedL (e :: es) =
      if e.group.countTowardMetric then uncountedAddedL es else e.addedLines + uncountedAddedL es := by
  by_cases h : e.group.countTowardMetric <;> simp [uncountedAddedL, List.filter_cons, h]

lemma uncountedRemovedL_cons (e : GroupedFiles) (es : List GroupedFiles) :
    uncountedRemovedL (e :: es) =
      if e.group.countTowardMetric then uncountedRemovedL es else e.removedLines + uncountedRemovedL es := by
  by_cases h : e.group.countTowardMetric <;> simp [uncountedRemovedL, List.filter_cons, h]

lemma foldl_processGroup_spec (matcher : Matcher) (files : List FileChange)
    (groups : List FileGroup) (ws : Option WsLookup) :
    ∀ (l : List (Nat × FileGroup)) (st : BuildState),
      l.foldl (processGroup matcher files groups ws) st =
        { entries := st.entries ++ l.filterMap (entryOf? matcher files groups ws),
          addedLines := st.addedLines + countedAdded (l.filterMap (entryOf? matcher files groups ws)),
          removedLines := st.removedLines + countedRemoved (l.filterMap (entryOf? matcher files groups ws)),
          uncountedAddedLines :=
            st.uncountedAddedLines + uncountedAddedL (l.filterMap (entryOf? matcher files groups ws)),
          uncountedRemovedLines :=
            st.uncountedRemovedLines + uncountedRemovedL (l.filterMap (entryOf? matcher files groups ws)) } := by
  intro l
  induction l with
  | nil =>
    intro st
    simp [countedAdded, countedRemoved, uncountedAddedL, uncountedRemovedL]
  | cons ig rest ih =>
    intro st
    rw [List.foldl_cons, ih]
    by_cases hempty : (groupFiles matcher groups files ig.1).isEmpty
    · have hst : processGroup matcher files groups ws st ig = st := by
        simp [processGroup, hempty]
      have hnone : entryOf? matcher files groups ws ig = none := by
        simp [entryOf?, hempty]
      rw [hst, List.filterMap_cons_none hnone]
    · have hso : entryOf? matcher files groups ws ig =
          some (mkGroupEntry (.defined ig.2) (groupFiles matcher groups files ig.1) ws) := by
        simp [entryOf?, hempty]
      rw [List.filterMap_cons_some hso]
      set e := mkGroupEntry (.defined ig.2) (groupFiles matcher groups files ig.1) ws with he
      have hflag : e.group.countTowardMetric = ig.2.countTowardMetric := by
        rw [he, mkGroupEntry_group]; rfl
      by_cases hcount : ig.2.countTowardMetric
      · have hst : processGroup matcher files groups ws st ig =
            { st with entries := st.entries ++ [e]
                      addedLines := st.addedLines + e.addedLines
                      removedLines := st.removedLines + e.removedLines } := by
          simp [processGroup, hempty, hcount, he]
        rw [hst]
        simp [countedAdded_cons, countedRemoved_cons, uncountedAddedL_cons, uncountedRemovedL_cons,
          hflag, hcount, List.append_assoc, Nat.add_assoc]
      · have hst : processGroup matcher files groups ws st ig =
            { st with entries := st.entries ++ [e]
                      uncountedAddedLines := st.uncountedAddedLines + e.addedLines
                      uncountedRemovedLines := st.uncountedRemovedLines + e.removedLines } := by
          simp [processGroup, hempty, hcount, he]
        rw [hst]
        simp [countedAdded_cons, countedRemoved_cons, uncountedAddedL_cons, uncountedRemovedL_cons,
          hflag, hcount, List.append_assoc, Nat.add_assoc]

/-- Structural characterisation of calculateDiffSummary: the output list is
the default entry (when non-empty) followed by the surviving defined-group
entries in order, and every total is the corresponding sum over that list. -/
theorem calculateDiffSummary_spec (matcher : Matcher) (files : List FileChange)
    (config : FileGroupsConfig) (ws : Option WsLookup) :
    calculateDiffSummary matcher files config ws =
      { addedLines := countedAdded
          (defaultEntryList matcher files config ws ++ definedEntryList matcher files config ws),
        removedLines := countedRemoved
          (defaultEntryList matcher files config ws ++ definedEntryList matcher files config ws),
        uncountedAddedLines := uncountedAddedL
          (defaultEntryList matcher files config ws ++ definedEntryList matcher files config ws),
        uncountedRemovedLines := uncountedRemovedL
          (defaultEntryList matcher files config ws ++ definedEntryList matcher files config ws),
        totalFiles := files.length,
        groupedFiles :=
          defaultEntryList matcher files config ws ++ definedEntryList matcher files config ws } := by
  simp only [calculateDiffSummary, defaultEntryList, definedEntryList]
  rw [foldl_processGroup_spec]
  by_cases h : (defaultFiles matcher config.groups files).isEmpty
  · simp [h, countedAdded, countedRemoved, uncountedAddedL, uncountedRemovedL]
  · have hflag : (mkGroupEntry (.default config.defaultGroup)
        (defaultFiles matcher config.groups files) ws).group.countTowardMetric = true := by
      rw [mkGroupEntry_group]; rfl
    simp [h, countedAdded_cons, countedRemoved_cons, uncountedAddedL_cons, uncountedRemovedL_cons, hflag]

lemma firstMatch_spec_some (m : Matcher) (fn : String) :
    ∀ (gs : List FileGroup) (i : Nat), firstMatch m gs fn = some i →
      ∃ h : i < gs.length, matchesGroup m (gs.get ⟨i, h⟩) fn = true ∧
        ∀ (j : Nat) (hj : j < gs.length), j < i → matchesGroup m (gs.get ⟨j, hj⟩) fn = false := by
  intro gs
  induction gs with
  | nil => intro i h; simp [firstMatch] at h
  | cons g rest ih =>
    intro i h
    by_cases hm : matchesGroup m g fn
    · simp only [firstMatch, hm, if_true] at h
      obtain rfl : (0 : Nat) = i := Option.some.inj h
      exact ⟨Nat.succ_pos _, hm, fun j hj hj0 => absurd hj0 (Nat.not_lt_zero j)⟩
    · simp only [firstMatch, hm, if_false, Bool.false_eq_true] at h
      obtain ⟨k, hk, rfl⟩ := Option.map_eq_some'.mp h
      obtain ⟨hklt, hkm, hkprev⟩ := ih k hk
      refine ⟨Nat.succ_lt_succ hklt, hkm, ?_⟩
      intro j hj hjlt
      match j with
      | 0 => exact Bool.eq_false_iff.mpr hm
      | Nat.succ j' =>
        exact hkprev j' (Nat.lt_of_succ_lt_succ hj) (Nat.lt_of_succ_lt_succ hjlt)

lemma firstMatch_spec_none (m : Matcher) (fn : String) :
    ∀ gs : List FileGroup, firstMatch m gs fn = none →
      ∀ g ∈ gs, matchesGroup m g fn = false := by
  intro gs
  induction gs with
  | nil => intro _ g hg; cases hg
  | cons g rest ih =>
    intro h g' hg'
    by_cases hm : matchesGroup m g fn
    · simp [firstMatch, hm] at h
    · simp only [firstMatch, hm, if_false, Bool.false_eq_true, Option.map_eq_none'] at h
      rcases List.mem_cons.mp hg' with rfl | hmem
      · exact Bool.eq_false_iff.mpr hm
      · exact ih h g' hmem

lemma firstMatch_lt (m : Matcher) (fn : String) (gs : List FileGroup) (i : Nat)
    (h : firstMatch m gs fn = some i) : i < gs.length :=
  (firstMatch_spec_some m fn gs i h).1

lemma aggregateGroupLines_foldl (iw : Bool) (ws : Option WsLookup) :
    ∀ (fls : List FileChange) (acc : AggResult),
      fls.foldl
        (fun acc file =>
          let adjusted : Option GitLineCounts :=
            match ws with
            | some lookup => if iw then lookup file.filename else none
            | none => none
          { added := acc.added + (match adjusted with | some a => a.additions | none => file.additions)
            removed := acc.removed + (match adjusted with | some a => a.deletions | none => file.deletions)
            rawAdded := acc.rawAdded + file.additions
            rawRemoved := acc.rawRemoved + file.deletions })
        acc =
      { added := acc.added + (fls.map (reportedAdditions iw ws)).sum,
        removed := acc.removed + (fls.map (reportedDeletions iw ws)).sum,
        rawAdded := acc.rawAdded + (fls.map FileChange.additions).sum,
        rawRemoved := acc.rawRemoved + (fls.map FileChange.deletions).sum } := by
  intro fls
  induction fls with
  | nil => intro acc; simp
  | cons f rest ih =>
    intro acc
    rw [List.foldl_cons, ih]
    simp [reportedAdditions, reportedDeletions, adjustedFor, Nat.add_assoc]

/-- aggregateGroupLines computes the four sums over the files of the group. -/
lemma aggregateGroupLines_spec (fls : List FileChange) (iw : Bool) (ws : Option WsLookup) :
    aggregateGroupLines fls iw ws =
      { added := (fls.map (reportedAdditions iw ws)).sum,
        removed := (fls.map (reportedDeletions iw ws)).sum,
        rawAdded := (fls.map FileChange.additions).sum,
        rawRemoved := (fls.map FileChange.deletions).sum } := by
  unfold aggregateGroupLines
  rw [aggregateGroupLines_foldl]
  simp

lemma count_filter_eq {α : Type} [DecidableEq α] (x : α) (p : α → Bool) :
    ∀ l : List α, (l.filter p).count x = if p x then l.count x else 0 := by
  intro l
  induction l with
  | nil => simp
  | cons a l ih =>
    by_cases hax : a = x
    · subst hax
      by_cases hpa : p a
      · simp [List.filter_cons, hpa, ih]
      · simp [List.filter_cons, hpa, ih]
    · by_cases hpa : p a
      · simp [List.filter_cons, hpa, ih, List.count_cons_of_ne (Ne.symm hax)]
      · simp [List.filter_cons, hpa, ih, List.count_cons_of_ne (Ne.symm hax)]

lemma enumFrom_indicator_sum (c : Nat) (i₀ : Nat) :
    ∀ (l : List FileGroup) (n : Nat),
      ((enumFrom n l).map (fun ig => if ig.1 = i₀ then c else 0)).sum =
        if n ≤ i₀ ∧ i₀ < n + l.length then c else 0 := by
  intro l
  induction l with
  | nil =>
    intro n
    simp only [enumFrom, List.map_nil, List.sum_nil, List.length_nil, Nat.add_zero]
    have h : ¬(n ≤ i₀ ∧ i₀ < n) := by omega
    rw [if_neg h]
  | cons g rest ih =>
    intro n
    simp only [enumFrom, List.map_cons, List.sum_cons, ih (n + 1), List.length_cons]
    split_ifs <;> omega

lemma count_join_defined (m : Matcher) (fs : List FileChange) (gs : List FileGroup)
    (ws : Option WsLookup) (x : FileChange) :
    ∀ l : List (Nat × FileGroup),
      (((l.filterMap (entryOf? m fs gs ws)).map GroupedFiles.files).flatten).count x =
        (l.map (fun ig => (groupFiles m gs fs ig.1).count x)).sum := by
  intro l
  induction l with
  | nil => simp
  | cons ig rest ih =>
    by_cases hempty : (groupFiles m gs fs ig.1).isEmpty
    · have hnone : entryOf? m fs gs ws ig = none := by simp [entryOf?, hempty]
      have hnil : groupFiles m gs fs ig.1 = [] := by
        exact List.isEmpty_iff.mp hempty
      rw [List.filterMap_cons_none hnone]
      simp [ih, hnil]
    · have hso : entryOf? m fs gs ws ig =
          some (mkGroupEntry (.defined ig.2) (groupFiles m gs fs ig.1) ws) := by
        simp [entryOf?, hempty]
      rw [List.filterMap_cons_some hso]
      simp [mkGroupEntry_files, List.count_append, ih]

lemma count_join_default (m : Matcher) (fs : List FileChange) (cfg : FileGroupsConfig)
    (ws : Option WsLookup) (x : FileChange) :
    (((defaultEntryList m fs cfg ws).map GroupedFiles.files).flatten).count x =
      (defaultFiles m cfg.groups fs).count x := by
  unfold defaultEntryList
  by_cases h : (defaultFiles m cfg.groups fs).isEmpty
  · have hnil : defaultFiles m cfg.groups fs = [] := List.isEmpty_iff.mp h
    simp [h, hnil]
  · simp [h, mkGroupEntry_files]

/-- The concatenation of all per-group file lists in the output is a
permutation of the input list: the classification is an exclusive
partition. -/
theorem groupedFiles_join_perm (m : Matcher) (fs : List FileChange)
    (cfg : FileGroupsConfig) (ws : Option WsLookup) :
    (((calculateDiffSummary m fs cfg ws).groupedFiles.map GroupedFiles.files).flatten).Perm fs := by
  rw [calculateDiffSummary_spec]
  rw [List.perm_iff_count]
  intro x
  simp only [List.map_append, List.flatten_append, List.count_append]
  rw [count_join_default]
  simp only [definedEntryList]
  rw [count_join_defined]
  cases hfm : firstMatch m cfg.groups x.filename with
  | none =>
    have h1 : (defaultFiles m cfg.groups fs).count x = fs.count x := by
      unfold defaultFiles
      rw [count_filter_eq]
      simp [hfm]
    have h2 : ((enumFrom 0 cfg.groups).map
        (fun ig => (groupFiles m cfg.groups fs ig.1).count x)).sum = 0 := by
      apply List.sum_eq_zero
      intro n hn
      obtain ⟨ig, _, rfl⟩ := List.mem_map.mp hn
      unfold groupFiles
      rw [count_filter_eq]
      simp [hfm]
    rw [h1, h2]
    omega
  | some i₀ =>
    have h1 : (defaultFiles m cfg.groups fs).count x = 0 := by
      unfold defaultFiles
      rw [count_filter_eq]
      simp [hfm]
    have h2 : ((enumFrom 0 cfg.groups).map
        (fun ig => (groupFiles m cfg.groups fs ig.1).count x)).sum = fs.count x := by
      have hcongr : ((enumFrom 0 cfg.groups).map
          (fun ig => (groupFiles m cfg.groups fs ig.1).count x)) =
          ((enumFrom 0 cfg.groups).map (fun ig => if ig.1 = i₀ then fs.count x else 0)) := by
        apply List.map_congr_left
        intro ig _
        unfold groupFiles
        rw [count_filter_eq]
        by_cases hig : ig.1 = i₀
        · simp [hfm, hig]
        · simp [hfm, hig, Ne.symm hig]
      rw [hcongr, enumFrom_indicator_sum]
      have hlt : i₀ < cfg.groups.length := firstMatch_lt m x.filename cfg.groups i₀ hfm
      have hcond : 0 ≤ i₀ ∧ i₀ < 0 + cfg.groups.length := ⟨Nat.zero_le _, by omega⟩
      rw [if_pos hcond]
    rw [h1, h2]
    omega

lemma mem_enumFrom :
    ∀ (l : List FileGroup) (n : Nat) (p : Nat × FileGroup), p ∈ enumFrom n l →
      ∃ k, ∃ h : k < l.length, p.1 = n + k ∧ p.2 = l.get ⟨k, h⟩ := by
  intro l
  induction l with
  | nil => intro n p h; cases h
  | cons g rest ih =>
    intro n p hp
    rcases List.mem_cons.mp hp with rfl | hmem
    · exact ⟨0, Nat.succ_pos _, by omega, rfl⟩
    · obtain ⟨k, hk, h1, h2⟩ := ih (n + 1) p hmem
      refine ⟨k + 1, Nat.succ_lt_succ hk, by omega, ?_⟩
      simpa using h2

/-- Every output entry is either the default-group entry over its bucket or
the entry of the group at some position i over the bucket of that group, each
non-empty. -/
lemma mem_groupedFiles (m : Matcher) (fs : List FileChange) (cfg : FileGroupsConfig)
    (ws : Option WsLookup) (e : GroupedFiles)
    (he : e ∈ (calculateDiffSummary m fs cfg ws).groupedFiles) :
    (e = mkGroupEntry (.default cfg.defaultGroup) (defaultFiles m cfg.groups fs) ws ∧
      ¬(defaultFiles m cfg.groups fs).isEmpty) ∨
    (∃ i, ∃ h : i < cfg.groups.length,
      e = mkGroupEntry (.defined (cfg.groups.get ⟨i, h⟩)) (groupFiles m cfg.groups fs i) ws ∧
      ¬(groupFiles m cfg.groups fs i).isEmpty) := by
  rw [calculateDiffSummary_spec] at he
  dsimp only at he
  rcases List.mem_append.mp he with h | h
  · left
    unfold defaultEntryList at h
    by_cases hempty : (defaultFiles m cfg.groups fs).isEmpty
    · simp [hempty] at h
    · simp only [hempty, if_false, Bool.false_eq_true, List.mem_singleton] at h
      exact ⟨h, hempty⟩
  · right
    unfold definedEntryList at h
    obtain ⟨ig, higmem, hig⟩ := List.mem_filterMap.mp h
    unfold entryOf? at hig
    by_cases hempty : (groupFiles m cfg.groups fs ig.1).isEmpty
    · simp [hempty] at hig
    · simp only [hempty, if_false, Bool.false_eq_true, Option.some.injEq] at hig
      obtain ⟨k, hk, h1, h2⟩ := mem_enumFrom cfg.groups 0 ig higmem
      have h1k : ig.1 = k := by omega
      refine ⟨k, hk, ?_, ?_⟩
      · rw [← hig, h1k, h2]
      · rw [← h1k]; exact hempty

/-- C1: calculateDiffSummary partitions the input exclusively.  The file
lists of the output entries concatenate to a permutation of the input list
(each input file appears exactly once overall), and any file found in an
entry is an input file whose entry is the default group only when no
configured group matches it, and the group at position i only when that
group matches it and no earlier group does. -/
theorem c1_exclusive_partition (m : Matcher) (fs : List FileChange)
    (cfg : FileGroupsConfig) (ws : Option WsLookup) :
    (((calculateDiffSummary m fs cfg ws).groupedFiles.map GroupedFiles.files).flatten).Perm fs ∧
    ∀ e ∈ (calculateDiffSummary m fs cfg ws).groupedFiles, ∀ f ∈ e.files,
      f ∈ fs ∧
      ((e.group = GroupRef.default cfg.defaultGroup ∧
          ∀ g ∈ cfg.groups, matchesGroup m g f.filename = false) ∨
        (∃ i, ∃ h : i < cfg.groups.length,
          e.group = GroupRef.defined (cfg.groups.get ⟨i, h⟩) ∧
          matchesGroup m (cfg.groups.get ⟨i, h⟩) f.filename = true ∧
          ∀ (j : Nat) (hj : j < cfg.groups.length), j < i →
            matchesGroup m (cfg.groups.get ⟨j, hj⟩) f.filename = false)) := by
  refine ⟨groupedFiles_join_perm m fs cfg ws, ?_⟩
  intro e he f hf
  rcases mem_groupedFiles m fs cfg ws e he with ⟨hdef, _⟩ | ⟨i, hi, hdefn, _⟩
  · rw [hdef, mkGroupEntry_files] at hf
    obtain ⟨hmem, hnone⟩ := List.mem_filter.mp hf
    have hfm : firstMatch m cfg.groups f.filename = none := by
      simpa using hnone
    refine ⟨hmem, Or.inl ⟨?_, firstMatch_spec_none m f.filename cfg.groups hfm⟩⟩
    rw [hdef, mkGroupEntry_group]
  · rw [hdefn, mkGroupEntry_files] at hf
    obtain ⟨hmem, hsome⟩ := List.mem_filter.mp hf
    have hfm : firstMatch m cfg.groups f.filename = some i := by
      simpa using hsome
    obtain ⟨hlt, hmatch, hprev⟩ := firstMatch_spec_some m f.filename cfg.groups i hfm
    refine ⟨hmem, Or.inr ⟨i, hi, ?_, ?_, ?_⟩⟩
    · rw [hdefn, mkGroupEntry_group]
    · exact hmatch
    · intro j hj hji; exact hprev j hj hji

lemma sum_added_split :
    ∀ es : List GroupedFiles,
      (es.map GroupedFiles.addedLines).sum = countedAdded es + uncountedAddedL es := by
  intro es
  induction es with
  | nil => simp [countedAdded, uncountedAddedL]
  | cons e es ih =>
    by_cases h : e.group.countTowardMetric <;>
      simp [countedAdded_cons, uncountedAddedL_cons, h, ih] <;> omega

lemma sum_removed_split :
    ∀ es : List GroupedFiles,
      (es.map GroupedFiles.removedLines).sum = countedRemoved es + uncountedRemovedL es := by
  intro es
  induction es with
  | nil => simp [countedRemoved, uncountedRemovedL]
  | cons e es ih =>
    by_cases h : e.group.countTowardMetric <;>
      simp [countedRemoved_cons, uncountedRemovedL_cons, h, ih] <;> omega

/-- C5: the summary totals are exactly the group-level sums split by the
counting flag (the flag of the default group being the literal true), and the
sum of all reported group totals equals counted plus uncounted. -/
theorem c5_additivity (m : Matcher) (fs : List FileChange)
    (cfg : FileGroupsConfig) (ws : Option WsLookup) :
    (calculateDiffSummary m fs cfg ws).addedLines =
      ((((calculateDiffSummary m fs cfg ws).groupedFiles.filter
          (fun e => e.group.countTowardMetric)).map GroupedFiles.addedLines)).sum ∧
    (calculateDiffSummary m fs cfg ws).removedLines =
      ((((calculateDiffSummary m fs cfg ws).groupedFiles.filter
          (fun e => e.group.countTowardMetric)).map GroupedFiles.removedLines)).sum ∧
    (calculateDiffSummary m fs cfg ws).uncountedAddedLines =
      ((((calculateDiffSummary m fs cfg ws).groupedFiles.filter
          (fun e => !e.group.countTowardMetric)).map GroupedFiles.addedLines)).sum ∧
    (calculateDiffSummary m fs cfg ws).uncountedRemovedLines =
      ((((calculateDiffSummary m fs cfg ws).groupedFiles.filter
          (fun e => !e.group.countTowardMetric)).map GroupedFiles.removedLines)).sum ∧
    ((calculateDiffSummary m fs cfg ws).groupedFiles.map GroupedFiles.addedLines).sum =
      (calculateDiffSummary m fs cfg ws).addedLines +
        (calculateDiffSummary m fs cfg ws).uncountedAddedLines ∧
    ((calculateDiffSummary m fs cfg ws).groupedFiles.map GroupedFiles.removedLines).sum =
      (calculateDiffSummary m fs cfg ws).removedLines +
        (calculateDiffSummary m fs cfg ws).uncountedRemovedLines := by
  rw [calculateDiffSummary_spec]
  dsimp only
  refine ⟨rfl, rfl, rfl, rfl, ?_, ?_⟩
  · exact sum_added_split _
  · exact sum_removed_split _

/-- C6: no empty group appears in the output, and the output order is the
default group first (when non-empty) followed by the non-empty defined
groups in configured order. -/
theorem c6_output_order (m : Matcher) (fs : List FileChange)
    (cfg : FileGroupsConfig) (ws : Option WsLookup) :
    (∀ e ∈ (calculateDiffSummary m fs cfg ws).groupedFiles, e.files ≠ []) ∧
    (calculateDiffSummary m fs cfg ws).groupedFiles.map GroupedFiles.group =
      (if (defaultFiles m cfg.groups fs).isEmpty then []
        else [GroupRef.default cfg.defaultGroup]) ++
      (enumFrom 0 cfg.groups).filterMap (fun ig =>
        if (groupFiles m cfg.groups fs ig.1).isEmpty then none
        else some (GroupRef.defined ig.2)) := by
  constructor
  · intro e he
    rcases mem_groupedFiles m fs cfg ws e he with ⟨hdef, hne⟩ | ⟨i, hi, hdefn, hne⟩
    · rw [hdef, mkGroupEntry_files]
      intro hcontra
      exact hne (by simp [hcontra])
    · rw [hdefn, mkGroupEntry_files]
      intro hcontra
      exact hne (by simp [hcontra])
  · rw [calculateDiffSummary_spec]
    dsimp only
    rw [List.map_append]
    congr 1
    · unfold defaultEntryList
      by_cases hempty : (defaultFiles m cfg.groups fs).isEmpty
      · simp [hempty]
      · simp [hempty, mkGroupEntry_group]
    · unfold definedEntryList
      rw [List.map_filterMap]
      apply List.filterMap_congr
      intro ig _
      unfold entryOf?
      by_cases hempty : (groupFiles m cfg.groups fs ig.1).isEmpty
      · simp [hempty]
      · simp [hempty, mkGroupEntry_group]

lemma mkGroupEntry_fields_together (gr : GroupRef) (fls : List FileChange)
    (ws : Option WsLookup) :
    (mkGroupEntry gr fls ws).whitespaceOnlyAddedLines.isSome =
      (mkGroupEntry gr fls ws).whitespaceOnlyRemovedLines.isSome := by
  simp only [mkGroupEntry]
  split
  · split <;> rfl
  · rfl

/-- C9: in every output entry the two whitespace-only fields are attached
together or omitted together. -/
theorem c9_ws_fields_attached_together (m : Matcher) (fs : List FileChange)
    (cfg : FileGroupsConfig) (ws : Option WsLookup) (e : GroupedFiles)
    (he : e ∈ (calculateDiffSummary m fs cfg ws).groupedFiles) :
    e.whitespaceOnlyAddedLines.isSome = e.whitespaceOnlyRemovedLines.isSome := by
  rcases mem_groupedFiles m fs cfg ws e he with ⟨hdef, _⟩ | ⟨i, hi, hdefn, _⟩
  · rw [hdef]; exact mkGroupEntry_fields_together _ _ _
  · rw [hdefn]; exact mkGroupEntry_fields_together _ _ _

lemma mkGroupEntry_ws_spec (gr : GroupRef) (fls : List FileChange) (lookup : WsLookup)
    (hiw : gr.ignoreWhitespace = true) :
    (mkGroupEntry gr fls (some lookup)).addedLines =
      (fls.map (reportedAdditions true (some lookup))).sum ∧
    (mkGroupEntry gr fls (some lookup)).removedLines =
      (fls.map (reportedDeletions true (some lookup))).sum ∧
    (mkGroupEntry gr fls (some lookup)).whitespaceOnlyAddedLines =
      (if ((fls.map FileChange.additions).sum : Int) -
            ((fls.map (reportedAdditions true (some lookup))).sum : Int) > 0 ∨
          ((fls.map FileChange.deletions).sum : Int) -
            ((fls.map (reportedDeletions true (some lookup))).sum : Int) > 0
        then some (((fls.map FileChange.additions).sum : Int) -
          ((fls.map (reportedAdditions true (some lookup))).sum : Int))
        else none) ∧
    (mkGroupEntry gr fls (some lookup)).whitespaceOnlyRemovedLines =
      (if ((fls.map FileChange.additions).sum : Int) -
            ((fls.map (reportedAdditions true (some lookup))).sum : Int) > 0 ∨
          ((fls.map FileChange.deletions).sum : Int) -
            ((fls.map (reportedDeletions true (some lookup))).sum : Int) > 0
        then some (((fls.map FileChange.deletions).sum : Int) -
          ((fls.map (reportedDeletions true (some lookup))).sum : Int))
        else none) := by
  simp only [mkGroupEntry, hiw, aggregateGroupLines_spec, Option.isSome_some, Bool.and_self,
    if_true]
  split <;> simp_all

/-- C2 (amended): for a group with ignoreWhitespace and a non-null lookup,
the reported totals are the sums of the substituted per-file counts, and
the whitespace-only fields hold raw-minus-substituted deltas, attached
exactly when at least one of the two deltas is strictly positive (so a
single attached field may be zero or negative as long as the other delta
is positive). -/
theorem c2_whitespace_reporting (m : Matcher) (fs : List FileChange)
    (cfg : FileGroupsConfig) (lookup : WsLookup) (e : GroupedFiles)
    (he : e ∈ (calculateDiffSummary m fs cfg (some lookup)).groupedFiles)
    (hiw : e.group.ignoreWhitespace = true) :
    e.addedLines = (e.files.map (fun f =>
        match lookup f.filename with
        | some c => c.additions
        | none => f.additions)).sum ∧
    e.removedLines = (e.files.map (fun f =>
        match lookup f.filename with
        | some c => c.deletions
        | none => f.deletions)).sum ∧
    e.whitespaceOnlyAddedLines =
      (if ((e.files.map FileChange.additions).sum : Int) - (e.addedLines : Int) > 0 ∨
          ((e.files.map FileChange.deletions).sum : Int) - (e.removedLines : Int) > 0
        then some (((e.files.map FileChange.additions).sum : Int) - (e.addedLines : Int))
        else none) ∧
    e.whitespaceOnlyRemovedLines =
      (if ((e.files.map FileChange.additions).sum : Int) - (e.addedLines : Int) > 0 ∨
          ((e.files.map FileChange.deletions).sum : Int) - (e.removedLines : Int) > 0
        then some (((e.files.map FileChange.deletions).sum : Int) - (e.removedLines : Int))
        else none) := by
  have hsubA : ∀ fls : List FileChange,
      (fls.map (reportedAdditions true (some lookup))).sum =
        (fls.map (fun f =>
          match lookup f.filename with
          | some c => c.additions
          | none => f.additions)).sum := by
    intro fls
    rfl
  have hsubD : ∀ fls : List FileChange,
      (fls.map (reportedDeletions true (some lookup))).sum =
        (fls.map (fun f =>
          match lookup f.filename with
          | some c => c.deletions
          | none => f.deletions)).sum := by
    intro fls
    rfl
  rcases mem_groupedFiles m fs cfg (some lookup) e he with ⟨hdef, _⟩ | ⟨i, hi, hdefn, _⟩
  · have hgr : e.group = GroupRef.default cfg.defaultGroup := by
      rw [hdef, mkGroupEntry_group]
    rw [hgr] at hiw
    obtain ⟨ha, hr, hwa, hwr⟩ :=
      mkGroupEntry_ws_spec (.default cfg.defaultGroup) (defaultFiles m cfg.groups fs) lookup hiw
    rw [hdef]
    rw [mkGroupEntry_files, ha, hr, hwa, hwr]
    rw [hsubA (defaultFiles m cfg.groups fs), hsubD (defaultFiles m cfg.groups fs)]
    exact ⟨rfl, rfl, rfl, rfl⟩
  · have hgr : e.group = GroupRef.defined (cfg.groups.get ⟨i, hi⟩) := by
      rw [hdefn, mkGroupEntry_group]
    rw [hgr] at hiw
    obtain ⟨ha, hr, hwa, hwr⟩ :=
      mkGroupEntry_ws_spec (.defined (cfg.groups.get ⟨i, hi⟩))
        (groupFiles m cfg.groups fs i) lookup hiw
    rw [hdefn]
    rw [mkGroupEntry_files, ha, hr, hwa, hwr]
    rw [hsubA (groupFiles m cfg.groups fs i), hsubD (groupFiles m cfg.groups fs i)]
    exact ⟨rfl, rfl, rfl, rfl⟩

/-- C2 counterexample to the claim as stated: at this input the entry has
both whitespace-only fields attached, whitespaceOnlyAddedLines = 2 but
whitespaceOnlyRemovedLines = 0, which is not strictly positive. -/
theorem c2_counterexample :
    ((calculateDiffSummary c2m [c2file] c2cfg (some c2lookup)).groupedFiles.map
      GroupedFiles.whitespaceOnlyRemovedLines) = [some 0] ∧
    ((calculateDiffSummary c2m [c2file] c2cfg (some c2lookup)).groupedFiles.map
      GroupedFiles.whitespaceOnlyAddedLines) = [some 2] ∧
    ¬((0 : Int) > 0) := by
  refine ⟨?_, ?_, by decide⟩ <;> rfl

/-- Witness instantiating the amended C2 theorem on the concrete example. -/
theorem c2_whitespace_reporting_witness :
    c2entry.addedLines = (c2entry.files.map (fun f =>
        match c2lookup f.filename with
        | some c => c.additions
        | none => f.additions)).sum ∧
    c2entry.removedLines = (c2entry.files.map (fun f =>
        match c2lookup f.filename with
        | some c => c.deletions
        | none => f.deletions)).sum ∧
    c2entry.whitespaceOnlyAddedLines =
      (if ((c2entry.files.map FileChange.additions).sum : Int) - (c2entry.addedLines : Int) > 0 ∨
          ((c2entry.files.map FileChange.deletions).sum : Int) - (c2entry.removedLines : Int) > 0
        then some (((c2entry.files.map FileChange.additions).sum : Int) - (c2entry.addedLines : Int))
        else none) ∧
    c2entry.whitespaceOnlyRemovedLines =
      (if ((c2entry.files.map FileChange.additions).sum : Int) - (c2entry.addedLines : Int) > 0 ∨
          ((c2entry.files.map FileChange.deletions).sum : Int) - (c2entry.removedLines : Int) > 0
        then some (((c2entry.files.map FileChange.deletions).sum : Int) - (c2entry.removedLines : Int))
        else none) :=
  c2_whitespace_reporting c2m [c2file] c2cfg c2lookup c2entry (by decide) (by decide)

/-- Witness instantiating C9 on the concrete whitespace example. -/
theorem c9_ws_fields_attached_together_witness :
    c2entry.whitespaceOnlyAddedLines.isSome = c2entry.whitespaceOnlyRemovedLines.isSome :=
  c9_ws_fields_attached_together c2m [c2file] c2cfg (some c2lookup) c2entry (by decide)

lemma mkGroupEntry_wsAdded (gr : GroupRef) (fls : List FileChange) (ws : Option WsLookup) :
    (mkGroupEntry gr fls ws).whitespaceOnlyAddedLines =
      (if gr.ignoreWhitespace && ws.isSome then
        (if ((aggregateGroupLines fls gr.ignoreWhitespace ws).rawAdded : Int) -
              ((aggregateGroupLines fls gr.ignoreWhitespace ws).added : Int) > 0 ∨
            ((aggregateGroupLines fls gr.ignoreWhitespace ws).rawRemoved : Int) -
              ((aggregateGroupLines fls gr.ignoreWhitespace ws).removed : Int) > 0
          then some (((aggregateGroupLines fls gr.ignoreWhitespace ws).rawAdded : Int) -
            ((aggregateGroupLines fls gr.ignoreWhitespace ws).added : Int))
          else none)
        else none) := by
  simp only [mkGroupEntry]
  split
  · split <;> rfl
  · rfl

lemma mkGroupEntry_wsRemoved (gr : GroupRef) (fls : List FileChange) (ws : Option WsLookup) :
    (mkGroupEntry gr fls ws).whitespaceOnlyRemovedLines =
      (if gr.ignoreWhitespace && ws.isSome then
        (if ((aggregateGroupLines fls gr.ignoreWhitespace ws).rawAdded : Int) -
              ((aggregateGroupLines fls gr.ignoreWhitespace ws).added : Int) > 0 ∨
            ((aggregateGroupLines fls gr.ignoreWhitespace ws).rawRemoved : Int) -
              ((aggregateGroupLines fls gr.ignoreWhitespace ws).removed : Int) > 0
          then some (((aggregateGroupLines fls gr.ignoreWhitespace ws).rawRemoved : Int) -
            ((aggregateGroupLines fls gr.ignoreWhitespace ws).removed : Int))
          else none)
        else none) := by
  simp only [mkGroupEntry]
  split
  · split <;> rfl
  · rfl

lemma entryData_mkGroupEntry_congr (g₁ g₂ : FileGroup) (h : sameGroupData g₁ g₂)
    (fls : List FileChange) (ws : Option WsLookup) :
    entryData (mkGroupEntry (.defined g₁) fls ws) =
      entryData (mkGroupEntry (.defined g₂) fls ws) := by
  obtain ⟨hl, hc, hw⟩ := h
  unfold entryData
  rw [mkGroupEntry_group, mkGroupEntry_group, mkGroupEntry_files, mkGroupEntry_files,
    mkGroupEntry_addedLines, mkGroupEntry_addedLines,
    mkGroupEntry_removedLines, mkGroupEntry_removedLines,
    mkGroupEntry_wsAdded, mkGroupEntry_wsAdded, mkGroupEntry_wsRemoved, mkGroupEntry_wsRemoved]
  have hwref : (GroupRef.defined g₁).ignoreWhitespace = (GroupRef.defined g₂).ignoreWhitespace := hw
  rw [hwref]
  have hlref : (GroupRef.defined g₁).label = (GroupRef.defined g₂).label := hl
  have hcref : (GroupRef.defined g₁).countTowardMetric = (GroupRef.defined g₂).countTowardMetric := hc
  rw [hlref, hcref]

lemma any_erase_of_never (m : Matcher) (p : String) (fn : String) (hm : m fn p = false) :
    ∀ l : List String, (l.erase p).any (fun q => m fn q) = l.any (fun q => m fn q) := by
  intro l
  induction l with
  | nil => rfl
  | cons a l ih =>
    by_cases hap : a = p
    · subst hap
      rw [List.erase_cons_head]
      simp [hm]
    · rw [List.erase_cons_tail]
      · simp [ih]
      · simp [hap]

lemma firstMatch_erase (m : Matcher) (p : String) (g : FileGroup) (post : List FileGroup)
    (hm : ∀ s, m s p = false) :
    ∀ (pre : List FileGroup) (fn : String),
      firstMatch m (pre ++ g :: post) fn =
        firstMatch m (pre ++ { g with patterns := g.patterns.erase p } :: post) fn := by
  have hmg : ∀ fn, matchesGroup m { g with patterns := g.patterns.erase p } fn =
      matchesGroup m g fn := by
    intro fn
    unfold matchesGroup
    exact any_erase_of_never m p fn (hm fn) g.patterns
  intro pre
  induction pre with
  | nil =>
    intro fn
    simp only [List.nil_append, firstMatch, hmg fn]
  | cons q pre ih =>
    intro fn
    simp only [List.cons_append, firstMatch, List.append_eq, ih fn]

lemma rel_append_middle (x y : FileGroup) (hxy : sameGroupData x y) :
    ∀ (pre post : List FileGroup) (j : Nat) (h₁ : j < (pre ++ x :: post).length)
      (h₂ : j < (pre ++ y :: post).length),
      sameGroupData ((pre ++ x :: post).get ⟨j, h₁⟩) ((pre ++ y :: post).get ⟨j, h₂⟩) := by
  intro pre
  induction pre with
  | nil =>
    intro post j h₁ h₂
    cases j with
    | zero => exact hxy
    | succ j => exact ⟨rfl, rfl, rfl⟩
  | cons a pre ih =>
    intro post j h₁ h₂
    cases j with
    | zero => exact ⟨rfl, rfl, rfl⟩
    | succ j =>
      have h₁' : j < (pre ++ x :: post).length := by simp at h₁ ⊢; omega
      have h₂' : j < (pre ++ y :: post).length := by simp at h₂ ⊢; omega
      exact ih post j h₁' h₂' 

lemma definedEntries_data_congr (m : Matcher) (fs : List FileChange)
    (GS GS' : List FileGroup) (ws : Option WsLookup)
    (hgf : ∀ i, groupFiles m GS fs i = groupFiles m GS' fs i) :
    ∀ (l₁ l₂ : List FileGroup) (n : Nat), l₁.length = l₂.length →
      (∀ (j : Nat) (h₁ : j < l₁.length) (h₂ : j < l₂.length),
        sameGroupData (l₁.get ⟨j, h₁⟩) (l₂.get ⟨j, h₂⟩)) →
      ((enumFrom n l₁).filterMap (entryOf? m fs GS ws)).map entryData =
        ((enumFrom n l₂).filterMap (entryOf? m fs GS' ws)).map entryData := by
  intro l₁
  induction l₁ with
  | nil =>
    intro l₂ n hlen _
    have h2 : l₂ = [] := by
      cases l₂ with
      | nil => rfl
      | cons b l₂ => cases hlen
    subst h2
    rfl
  | cons a l₁ ih =>
    intro l₂ n hlen hrel
    cases l₂ with
    | nil => cases hlen
    | cons b l₂ =>
      have hab : sameGroupData a b := hrel 0 (Nat.succ_pos _) (Nat.succ_pos _)
      have hlen2 : l₁.length = l₂.length := by simpa using hlen
      have hrel2 : ∀ (j : Nat) (h₁ : j < l₁.length) (h₂ : j < l₂.length),
          sameGroupData (l₁.get ⟨j, h₁⟩) (l₂.get ⟨j, h₂⟩) := by
        intro j h₁ h₂
        have := hrel (j + 1) (Nat.succ_lt_succ h₁) (Nat.succ_lt_succ h₂)
        simpa using this
      simp only [enumFrom]
      by_cases hempty : (groupFiles m GS fs n).isEmpty
      · have hempty2 : (groupFiles m GS' fs n).isEmpty := by rw [← hgf n]; exact hempty
        have hn1 : entryOf? m fs GS ws (n, a) = none := by simp [entryOf?, hempty]
        have hn2 : entryOf? m fs GS' ws (n, b) = none := by simp [entryOf?, hempty2]
        rw [List.filterMap_cons_none hn1, List.filterMap_cons_none hn2]
        exact ih l₂ (n + 1) hlen2 hrel2
      · have hempty2 : ¬(groupFiles m GS' fs n).isEmpty := by rw [← hgf n]; exact hempty
        have hs1 : entryOf? m fs GS ws (n, a) =
            some (mkGroupEntry (.defined a) (groupFiles m GS fs n) ws) := by
          simp [entryOf?, hempty]
        have hs2 : entryOf? m fs GS' ws (n, b) =
            some (mkGroupEntry (.defined b) (groupFiles m GS' fs n) ws) := by
          simp [entryOf?, hempty2]
        rw [List.filterMap_cons_some hs1, List.filterMap_cons_some hs2]
        simp only [List.map_cons]
        congr 1
        · rw [← hgf n]
          exact entryData_mkGroupEntry_congr a b hab _ _
        · exact ih l₂ (n + 1) hlen2 hrel2

lemma totals_congr_of_dataEq :
    ∀ es₁ es₂ : List GroupedFiles, es₁.map entryData = es₂.map entryData →
      countedAdded es₁ = countedAdded es₂ ∧ countedRemoved es₁ = countedRemoved es₂ ∧
        uncountedAddedL es₁ = uncountedAddedL es₂ ∧
        uncountedRemovedL es₁ = uncountedRemovedL es₂ := by
  intro es₁
  induction es₁ with
  | nil =>
    intro es₂ h
    cases es₂ with
    | nil => exact ⟨rfl, rfl, rfl, rfl⟩
    | cons e₂ es₂ => cases h
  | cons e es ih =>
    intro es₂ h
    cases es₂ with
    | nil => cases h
    | cons e₂ es₂ =>
      simp only [List.map_cons, List.cons.injEq] at h
      obtain ⟨hdata, htail⟩ := h
      simp only [entryData, Prod.mk.injEq] at hdata
      obtain ⟨_, hflag, _, hadd, hrem, _, _⟩ := hdata
      obtain ⟨h1, h2, h3, h4⟩ := ih es₂ htail
      by_cases hc : e.group.countTowardMetric
      · have hc2 : e₂.group.countTowardMetric = true := by rw [← hflag]; exact hc
        simp [countedAdded_cons, countedRemoved_cons, uncountedAddedL_cons,
          uncountedRemovedL_cons, hc, hc2, h1, h2, h3, h4, hadd, hrem]
      · have hc2 : e₂.group.countTowardMetric = false := by
          rw [← hflag]; exact Bool.eq_false_iff.mpr hc
        simp [countedAdded_cons, countedRemoved_cons, uncountedAddedL_cons,
          uncountedRemovedL_cons, hc, hc2, h1, h2, h3, h4, hadd, hrem]

/-- C4: a pattern the matcher matches no filename against behaves exactly
as if it were absent.  calculateDiffSummary is a total function, so the
classification never aborts, and erasing such a pattern from any group
leaves every total, every bucket, and every reported entry datum (all but
the echoed pattern list) unchanged. -/
theorem c4_bad_pattern_harmless (m : Matcher) (fs : List FileChange)
    (pre post : List FileGroup) (g : FileGroup) (dg : DefaultGroupConfig)
    (ws : Option WsLookup) (p : String)
    (hm : ∀ s, m s p = false) :
    (calculateDiffSummary m fs ⟨pre ++ g :: post, dg⟩ ws).addedLines =
      (calculateDiffSummary m fs
        ⟨pre ++ { g with patterns := g.patterns.erase p } :: post, dg⟩ ws).addedLines ∧
    (calculateDiffSummary m fs ⟨pre ++ g :: post, dg⟩ ws).removedLines =
      (calculateDiffSummary m fs
        ⟨pre ++ { g with patterns := g.patterns.erase p } :: post, dg⟩ ws).removedLines ∧
    (calculateDiffSummary m fs ⟨pre ++ g :: post, dg⟩ ws).uncountedAddedLines =
      (calculateDiffSummary m fs
        ⟨pre ++ { g with patterns := g.patterns.erase p } :: post, dg⟩ ws).uncountedAddedLines ∧
    (calculateDiffSummary m fs ⟨pre ++ g :: post, dg⟩ ws).uncountedRemovedLines =
      (calculateDiffSummary m fs
        ⟨pre ++ { g with patterns := g.patterns.erase p } :: post, dg⟩ ws).uncountedRemovedLines ∧
    (calculateDiffSummary m fs ⟨pre ++ g :: post, dg⟩ ws).totalFiles =
      (calculateDiffSummary m fs
        ⟨pre ++ { g with patterns := g.patterns.erase p } :: post, dg⟩ ws).totalFiles ∧
    (calculateDiffSummary m fs ⟨pre ++ g :: post, dg⟩ ws).groupedFiles.map entryData =
      (calculateDiffSummary m fs
        ⟨pre ++ { g with patterns := g.patterns.erase p } :: post, dg⟩ ws).groupedFiles.map
        entryData := by
  set g' := { g with patterns := g.patterns.erase p } with hg'
  set GS := pre ++ g :: post with hGS
  set GS' := pre ++ g' :: post with hGS'
  have hfm : ∀ fn, firstMatch m GS fn = firstMatch m GS' fn :=
    firstMatch_erase m p g post hm pre
  have hgf : ∀ i, groupFiles m GS fs i = groupFiles m GS' fs i := by
    intro i
    unfold groupFiles
    apply List.filter_congr
    intro f _
    rw [hfm f.filename]
  have hdf : defaultFiles m GS fs = defaultFiles m GS' fs := by
    unfold defaultFiles
    apply List.filter_congr
    intro f _
    rw [hfm f.filename]
  have hdefault : defaultEntryList m fs ⟨GS, dg⟩ ws = defaultEntryList m fs ⟨GS', dg⟩ ws := by
    unfold defaultEntryList
    dsimp only
    rw [hdf]
  have hlen : GS.length = GS'.length := by
    rw [hGS, hGS']
    simp
  have hrel : ∀ (j : Nat) (h₁ : j < GS.length) (h₂ : j < GS'.length),
      sameGroupData (GS.get ⟨j, h₁⟩) (GS'.get ⟨j, h₂⟩) :=
    rel_append_middle g g' ⟨rfl, rfl, rfl⟩ pre post
  have hdefined : (definedEntryList m fs ⟨GS, dg⟩ ws).map entryData =
      (definedEntryList m fs ⟨GS', dg⟩ ws).map entryData := by
    unfold definedEntryList
    exact definedEntries_data_congr m fs GS GS' ws hgf GS GS' 0 hlen hrel
  have hdataEq : (defaultEntryList m fs ⟨GS, dg⟩ ws ++ definedEntryList m fs ⟨GS, dg⟩ ws).map
      entryData =
      (defaultEntryList m fs ⟨GS', dg⟩ ws ++ definedEntryList m fs ⟨GS', dg⟩ ws).map entryData := by
    rw [List.map_append, List.map_append, hdefault, hdefined]
  obtain ⟨t1, t2, t3, t4⟩ := totals_congr_of_dataEq _ _ hdataEq
  rw [calculateDiffSummary_spec m fs ⟨GS, dg⟩ ws, calculateDiffSummary_spec m fs ⟨GS', dg⟩ ws]
  exact ⟨t1, t2, t3, t4, rfl, hdataEq⟩

/-- When a group validates successfully, its two flags come from the
count and ignore-whitespace fields with their documented defaults. -/
lemma parseGroupAux_ok_flags (groupNum : Nat) (glob : Bool) (raw : RawValue)
    (g : FileGroup) (h : parseGroupAux groupNum glob raw = .ok g) :
    ((getField raw "count" = none → g.countTowardMetric = true) ∧
      (∀ b, getField raw "count" = some (.bool b) → g.countTowardMetric = b)) ∧
    ((getField raw "ignore-whitespace" = none → g.ignoreWhitespace = glob) ∧
      (∀ b, getField raw "ignore-whitespace" = some (.bool b) → g.ignoreWhitespace = b)) := by
  unfold parseGroupAux at h
  split at h
  case _ label hlab =>
    split at h
    · simp at h
    · split at h
      case _ rawPatterns hpat =>
        split at h
        · simp at h
        · split at h
          · simp at h
          case _ patterns hps =>
            split at h
            · simp at h
            case _ ctm hcount =>
              split at h
              · simp at h
              case _ iw hiw =>
                have hg : g = ⟨jsTrim label, patterns, ctm, iw⟩ :=
                  (Except.ok.inj h).symm
                subst hg
                refine ⟨⟨?_, ?_⟩, ?_, ?_⟩
                · intro hnone
                  unfold parseCountField at hcount
                  rw [hnone] at hcount
                  exact (Except.ok.inj hcount).symm
                · intro b hb
                  unfold parseCountField at hcount
                  rw [hb] at hcount
                  exact (Except.ok.inj hcount).symm
                · intro hnone
                  unfold parseIgnoreWsField at hiw
                  rw [hnone] at hiw
                  exact (Except.ok.inj hiw).symm
                · intro b hb
                  unfold parseIgnoreWsField at hiw
                  rw [hb] at hiw
                  exact (Except.ok.inj hiw).symm
      case _ hne => simp at h
  case _ hne => simp at h

/-- Successful parseGroupsFrom validates each item in order with its
1-indexed group number. -/
lemma parseGroupsFrom_ok (glob : Bool) :
    ∀ (items : List RawValue) (n : Nat) (gs : List FileGroup),
      parseGroupsFrom glob n items = .ok gs →
      gs.length = items.length ∧
      ∀ (i : Nat) (hi : i < items.length) (hi2 : i < gs.length),
        parseGroupAux (n + i + 1) glob (items.get ⟨i, hi⟩) = .ok (gs.get ⟨i, hi2⟩) := by
  intro items
  induction items with
  | nil =>
    intro n gs h
    unfold parseGroupsFrom at h
    have hg : gs = [] := (Except.ok.inj h).symm
    subst hg
    exact ⟨rfl, fun i hi => absurd hi (Nat.not_lt_zero i)⟩
  | cons raw rest ih =>
    intro n gs h
    unfold parseGroupsFrom at h
    split at h
    · simp at h
    case _ g hg =>
      split at h
      · simp at h
      case _ gs2 hgs2 =>
        have hgg : gs = g :: gs2 := (Except.ok.inj h).symm
        subst hgg
        obtain ⟨hlen, hidx⟩ := ih (n + 1) gs2 hgs2
        refine ⟨by simp [hlen], ?_⟩
        intro i hi hi2
        match i with
        | 0 => exact hg
        | Nat.succ j =>
          have harith : n + 1 + j + 1 = n + (j + 1) + 1 := by omega
          have := hidx j (Nat.lt_of_succ_lt_succ hi) (Nat.lt_of_succ_lt_succ hi2)
          rw [harith] at this
          exact this

/-- C3 (spec-modelled): the parser sets the whitespace flag of the default group
flag directly from the global flag, and gives every group whose
ignore-whitespace field is absent the global flag as default while a
boolean field overrides it. -/
theorem c3_global_ignore_whitespace (yamlLoad : String → Except String RawValue)
    (input defaultLabel : String) (glob : Bool) (cfg : FileGroupsConfig)
    (hok : parseFileGroups yamlLoad input defaultLabel glob = .ok cfg) :
    cfg.defaultGroup.ignoreWhitespace = glob ∧
    ∀ (items : List RawValue), yamlLoad input = .ok (.list items) → jsTrim input ≠ "" →
      cfg.groups.length = items.length ∧
      ∀ (i : Nat) (hi : i < items.length) (hi2 : i < cfg.groups.length),
        (getField (items.get ⟨i, hi⟩) "ignore-whitespace" = none →
          (cfg.groups.get ⟨i, hi2⟩).ignoreWhitespace = glob) ∧
        ∀ b, getField (items.get ⟨i, hi⟩) "ignore-whitespace" = some (.bool b) →
          (cfg.groups.get ⟨i, hi2⟩).ignoreWhitespace = b := by
  constructor
  · unfold parseFileGroups at hok
    split at hok
    · have hcfg : cfg = ⟨[], mkDefaultGroup defaultLabel glob⟩ :=
        (Except.ok.inj hok).symm
      subst hcfg
      rfl
    · split at hok
      · simp at hok
      · split at hok
        case _ items =>
          split at hok
          · simp at hok
          case _ groups hgroups =>
            have hcfg : cfg = ⟨groups, mkDefaultGroup defaultLabel glob⟩ :=
              (Except.ok.inj hok).symm
            subst hcfg
            rfl
        · simp at hok
  · intro items hld htrim
    unfold parseFileGroups at hok
    rw [if_neg htrim, hld] at hok
    dsimp only at hok
    split at hok
    · simp at hok
    case _ groups hgroups =>
      have hcfg : cfg = ⟨groups, mkDefaultGroup defaultLabel glob⟩ :=
        (Except.ok.inj hok).symm
      subst hcfg
      obtain ⟨hlen, hidx⟩ := parseGroupsFrom_ok glob items 0 groups hgroups
      refine ⟨hlen, ?_⟩
      intro i hi hi2
      have hpg := hidx i hi hi2
      have harith : 0 + i + 1 = i + 1 := by omega
      rw [harith] at hpg
      exact (parseGroupAux_ok_flags (i + 1) glob (items.get ⟨i, hi⟩)
        (groups.get ⟨i, hi2⟩) hpg).2

lemma parseGroupAux_count_error (groupNum : Nat) (glob : Bool) (raw : RawValue)
    (label : String) (rawPatterns : List RawValue)
    (hlab : getField raw "label" = some (.str label))
    (hlabne : ¬jsTrim label = "")
    (hpat : getField raw "patterns" = some (.list rawPatterns))
    (hpatne : ¬rawPatterns.isEmpty = true)
    (hpats : ∃ ps, validatePatterns groupNum label 0 rawPatterns = .ok ps)
    (v : RawValue) (hcount : getField raw "count" = some v)
    (hvb : ∀ b, v ≠ .bool b) :
    parseGroupAux groupNum glob raw = .error (countErrMsg groupNum label) := by
  obtain ⟨ps, hps⟩ := hpats
  have hc : parseCountField groupNum label raw = .error (countErrMsg groupNum label) := by
    unfold parseCountField
    rw [hcount]
    cases v with
    | bool b => exact absurd rfl (hvb b)
    | str s => rfl
    | num n => rfl
    | null => rfl
    | list xs => rfl
    | obj fields => rfl
  unfold parseGroupAux
  rw [hlab]
  dsimp only
  rw [if_neg hlabne, hpat]
  dsimp only
  rw [if_neg hpatne, hps]
  dsimp only
  rw [hc]

lemma parseGroupsFrom_error_at (glob : Bool) :
    ∀ (front : List RawValue) (n : Nat) (gs : List FileGroup) (raw : RawValue)
      (rest : List RawValue) (e : String),
      parseGroupsFrom glob n front = .ok gs →
      parseGroupAux (n + front.length + 1) glob raw = .error e →
      parseGroupsFrom glob n (front ++ raw :: rest) = .error e := by
  intro front
  induction front with
  | nil =>
    intro n gs raw rest e hok herr
    simp only [List.length_nil, Nat.add_zero] at herr
    unfold parseGroupsFrom
    simp only [List.nil_append]
    rw [herr]
  | cons r front ih =>
    intro n gs raw rest e hok herr
    unfold parseGroupsFrom at hok ⊢
    split at hok
    · simp at hok
    case _ g hg =>
      split at hok
      · simp at hok
      case _ gs2 hgs2 =>
        simp only [List.cons_append]
        rw [hg]
        dsimp only
        have harith : n + 1 + front.length + 1 = n + (r :: front).length + 1 := by
          simp
          omega
        have hrec := ih (n + 1) gs2 raw rest e hgs2 (by rw [harith]; exact herr)
        rw [hrec]

/-- C7: given a group whose count field holds a non-boolean after valid
label and patterns, the parser fails with the exact message carrying the
1-indexed group number, the label, and the name count; an empty or
whitespace-only raw configuration is not an error and yields only the
default group. -/
theorem c7_parser_diagnostics (yamlLoad : String → Except String RawValue)
    (input input2 defaultLabel : String) (glob : Bool)
    (front rest : List RawValue) (raw : RawValue) (gs : List FileGroup)
    (label : String) (rawPatterns : List RawValue) (v : RawValue) :
    (yamlLoad input = .ok (.list (front ++ raw :: rest)) → jsTrim input ≠ "" →
      parseGroupsFrom glob 0 front = .ok gs →
      getField raw "label" = some (.str label) → ¬jsTrim label = "" →
      getField raw "patterns" = some (.list rawPatterns) → ¬rawPatterns.isEmpty = true →
      (∃ ps, validatePatterns (front.length + 1) label 0 rawPatterns = .ok ps) →
      getField raw "count" = some v → (∀ b, v ≠ .bool b) →
      parseFileGroups yamlLoad input defaultLabel glob =
        .error (countErrMsg (front.length + 1) label)) ∧
    (jsTrim input2 = "" →
      parseFileGroups yamlLoad input2 defaultLabel glob =
        .ok ⟨[], mkDefaultGroup defaultLabel glob⟩) := by
  constructor
  · intro hld htrim hfront hlab hlabne hpat hpatne hpats hcount hvb
    have herr := parseGroupAux_count_error (front.length + 1) glob raw label rawPatterns
      hlab hlabne hpat hpatne hpats v hcount hvb
    have hfull : parseGroupsFrom glob 0 (front ++ raw :: rest) =
        .error (countErrMsg (front.length + 1) label) := by
      apply parseGroupsFrom_error_at glob front 0 gs raw rest _ hfront
      have harith : 0 + front.length + 1 = front.length + 1 := by omega
      rw [harith]
      exact herr
    unfold parseFileGroups
    rw [if_neg htrim, hld]
    dsimp only
    rw [hfull]
  · intro htrim2
    unfold parseFileGroups
    rw [if_pos htrim2]

lemma find?_insert_irrelevant (key k : String) (v : RawValue)
    (back : List (String × RawValue)) (hk : k ≠ key) :
    ∀ front : List (String × RawValue),
      (front ++ (k, v) :: back).find? (fun kv => kv.1 == key) =
        (front ++ back).find? (fun kv => kv.1 == key) := by
  intro front
  induction front with
  | nil =>
    simp only [List.nil_append, List.find?_cons]
    have hkk : (k == key) = false := by simp [hk]
    simp [hkk]
  | cons a front ih =>
    simp only [List.cons_append, List.find?_cons]
    cases ha : a.1 == key
    · simp [ha, ih]
    · simp [ha]

lemma getField_insert_irrelevant (key k : String) (v : RawValue)
    (front back : List (String × RawValue)) (hk : k ≠ key) :
    getField (.obj (front ++ (k, v) :: back)) key = getField (.obj (front ++ back)) key := by
  simp only [getField]
  rw [find?_insert_irrelevant key k v back hk front]

/-- parseGroupAux reads its input only through the four recognised keys. -/
lemma parseGroupAux_congr (groupNum : Nat) (glob : Bool) (raw₁ raw₂ : RawValue)
    (h1 : getField raw₁ "label" = getField raw₂ "label")
    (h2 : getField raw₁ "patterns" = getField raw₂ "patterns")
    (h3 : getField raw₁ "count" = getField raw₂ "count")
    (h4 : getField raw₁ "ignore-whitespace" = getField raw₂ "ignore-whitespace") :
    parseGroupAux groupNum glob raw₁ = parseGroupAux groupNum glob raw₂ := by
  unfold parseGroupAux parseCountField parseIgnoreWsField
  rw [h1, h2, h3, h4]

/-- C10: an unrecognised key in a group object (such as a misspelled
ignoreWhitespace) causes no error and has no effect: the group validates
exactly as without it, and its count and ignore-whitespace settings take
their defaults (true and the global flag) when those fields are absent. -/
theorem c10_unrecognized_keys_ignored (glob : Bool) (groupNum : Nat) (k : String)
    (v : RawValue) (front back : List (String × RawValue))
    (hk1 : k ≠ "label") (hk2 : k ≠ "patterns") (hk3 : k ≠ "count")
    (hk4 : k ≠ "ignore-whitespace") :
    parseGroupAux groupNum glob (.obj (front ++ (k, v) :: back)) =
      parseGroupAux groupNum glob (.obj (front ++ back)) ∧
    ∀ g, parseGroupAux groupNum glob (.obj (front ++ (k, v) :: back)) = .ok g →
      (getField (.obj (front ++ back)) "count" = none → g.countTowardMetric = true) ∧
      (getField (.obj (front ++ back)) "ignore-whitespace" = none →
        g.ignoreWhitespace = glob) := by
  have hcong := parseGroupAux_congr groupNum glob (.obj (front ++ (k, v) :: back))
    (.obj (front ++ back))
    (getField_insert_irrelevant "label" k v front back hk1)
    (getField_insert_irrelevant "patterns" k v front back hk2)
    (getField_insert_irrelevant "count" k v front back hk3)
    (getField_insert_irrelevant "ignore-whitespace" k v front back hk4)
  refine ⟨hcong, ?_⟩
  intro g hg
  rw [hcong] at hg
  have hflags := parseGroupAux_ok_flags groupNum glob (.obj (front ++ back)) g hg
  exact ⟨fun hn => hflags.1.1 hn, fun hn => hflags.2.1 hn⟩

/-- Witness instantiating C1 on the one-file, one-group example. -/
theorem c1_exclusive_partition_witness :
    (((calculateDiffSummary c1m [c1f] c1cfg none).groupedFiles.map
      GroupedFiles.files).flatten).Perm [c1f] ∧
    (c1f ∈ [c1f] ∧
      ((c1entry.group = GroupRef.default c1cfg.defaultGroup ∧
          ∀ g ∈ c1cfg.groups, matchesGroup c1m g c1f.filename = false) ∨
        ∃ i, ∃ h : i < c1cfg.groups.length,
          c1entry.group = GroupRef.defined (c1cfg.groups.get ⟨i, h⟩) ∧
          matchesGroup c1m (c1cfg.groups.get ⟨i, h⟩) c1f.filename = true ∧
          ∀ (j : Nat) (hj : j < c1cfg.groups.length), j < i →
            matchesGroup c1m (c1cfg.groups.get ⟨j, hj⟩) c1f.filename = false)) :=
  ⟨(c1_exclusive_partition c1m [c1f] c1cfg none).1,
    (c1_exclusive_partition c1m [c1f] c1cfg none).2 c1entry (by decide) c1f (by decide)⟩

/-- Witness instantiating C5 on the one-file, one-group example. -/
theorem c5_additivity_witness :
    (calculateDiffSummary c1m [c1f] c1cfg none).addedLines =
      ((((calculateDiffSummary c1m [c1f] c1cfg none).groupedFiles.filter
          (fun e => e.group.countTowardMetric)).map GroupedFiles.addedLines)).sum ∧
    (calculateDiffSummary c1m [c1f] c1cfg none).removedLines =
      ((((calculateDiffSummary c1m [c1f] c1cfg none).groupedFiles.filter
          (fun e => e.group.countTowardMetric)).map GroupedFiles.removedLines)).sum ∧
    (calculateDiffSummary c1m [c1f] c1cfg none).uncountedAddedLines =
      ((((calculateDiffSummary c1m [c1f] c1cfg none).groupedFiles.filter
          (fun e => !e.group.countTowardMetric)).map GroupedFiles.addedLines)).sum ∧
    (calculateDiffSummary c1m [c1f] c1cfg none).uncountedRemovedLines =
      ((((calculateDiffSummary c1m [c1f] c1cfg none).groupedFiles.filter
          (fun e => !e.group.countTowardMetric)).map GroupedFiles.removedLines)).sum ∧
    ((calculateDiffSummary c1m [c1f] c1cfg none).groupedFiles.map GroupedFiles.addedLines).sum =
      (calculateDiffSummary c1m [c1f] c1cfg none).addedLines +
        (calculateDiffSummary c1m [c1f] c1cfg none).uncountedAddedLines ∧
    ((calculateDiffSummary c1m [c1f] c1cfg none).groupedFiles.map GroupedFiles.removedLines).sum =
      (calculateDiffSummary c1m [c1f] c1cfg none).removedLines +
        (calculateDiffSummary c1m [c1f] c1cfg none).uncountedRemovedLines :=
  c5_additivity c1m [c1f] c1cfg none

/-- Witness instantiating C6 on the one-file, one-group example. -/
theorem c6_output_order_witness :
    c1entry.files ≠ [] ∧
    (calculateDiffSummary c1m [c1f] c1cfg none).groupedFiles.map GroupedFiles.group =
      (if (defaultFiles c1m c1cfg.groups [c1f]).isEmpty then []
        else [GroupRef.default c1cfg.defaultGroup]) ++
      (enumFrom 0 c1cfg.groups).filterMap (fun ig =>
        if (groupFiles c1m c1cfg.groups [c1f] ig.1).isEmpty then none
        else some (GroupRef.defined ig.2)) :=
  ⟨(c6_output_order c1m [c1f] c1cfg none).1 c1entry (by decide),
    (c6_output_order c1m [c1f] c1cfg none).2⟩

/-- Witness instantiating C4: the match-nothing matcher makes every
pattern bad, erasing the pattern x changes nothing observable. -/
theorem c4_bad_pattern_harmless_witness :
    (calculateDiffSummary c2m [c2file] ⟨[] ++ c4g :: [], c4dg⟩ none).addedLines =
      (calculateDiffSummary c2m [c2file]
        ⟨[] ++ { c4g with patterns := c4g.patterns.erase "x" } :: [], c4dg⟩ none).addedLines ∧
    (calculateDiffSummary c2m [c2file] ⟨[] ++ c4g :: [], c4dg⟩ none).removedLines =
      (calculateDiffSummary c2m [c2file]
        ⟨[] ++ { c4g with patterns := c4g.patterns.erase "x" } :: [], c4dg⟩ none).removedLines ∧
    (calculateDiffSummary c2m [c2file] ⟨[] ++ c4g :: [], c4dg⟩ none).uncountedAddedLines =
      (calculateDiffSummary c2m [c2file]
        ⟨[] ++ { c4g with patterns := c4g.patterns.erase "x" } :: [], c4dg⟩
          none).uncountedAddedLines ∧
    (calculateDiffSummary c2m [c2file] ⟨[] ++ c4g :: [], c4dg⟩ none).uncountedRemovedLines =
      (calculateDiffSummary c2m [c2file]
        ⟨[] ++ { c4g with patterns := c4g.patterns.erase "x" } :: [], c4dg⟩
          none).uncountedRemovedLines ∧
    (calculateDiffSummary c2m [c2file] ⟨[] ++ c4g :: [], c4dg⟩ none).totalFiles =
      (calculateDiffSummary c2m [c2file]
        ⟨[] ++ { c4g with patterns := c4g.patterns.erase "x" } :: [], c4dg⟩ none).totalFiles ∧
    (calculateDiffSummary c2m [c2file] ⟨[] ++ c4g :: [], c4dg⟩ none).groupedFiles.map entryData =
      (calculateDiffSummary c2m [c2file]
        ⟨[] ++ { c4g with patterns := c4g.patterns.erase "x" } :: [], c4dg⟩
          none).groupedFiles.map entryData :=
  c4_bad_pattern_harmless c2m [c2file] [] [] c4g c4dg none "x" (fun _ => rfl)

/-- Witness instantiating C3 with global flag true: the default group and
the group without a per-group flag both carry true. -/
theorem c3_global_ignore_whitespace_witness :
    c3cfg.defaultGroup.ignoreWhitespace = true ∧
    (c3cfg.groups.get ⟨0, by decide⟩).ignoreWhitespace = true := by
  have h := c3_global_ignore_whitespace c3yl "x" "Changed" true c3cfg (by rfl)
  refine ⟨h.1, ?_⟩
  obtain ⟨hlen, hidx⟩ := h.2 [c3raw] rfl (by decide)
  exact (hidx 0 (by decide) (by decide)).1 rfl

/-- Witness instantiating C7: the exact failure message on count yes, and
the empty-input success, with the message content spelled out. -/
theorem c7_parser_diagnostics_witness :
    parseFileGroups c7yl "x" "Changed" false = .error (countErrMsg 1 "Source") ∧
    parseFileGroups c7yl "" "Changed" false = .ok ⟨[], mkDefaultGroup "Changed" false⟩ ∧
    countErrMsg 1 "Source" =
      "Group 1 (\"Source\"): \x27count\x27 must be a boolean (true or false)" := by
  have h := c7_parser_diagnostics c7yl "x" "" "Changed" false [] [] c7raw []
    "Source" [.str "src/**"] (.str "yes")
  refine ⟨?_, h.2 rfl, rfl⟩
  exact h.1 rfl (by decide) rfl rfl (by decide) rfl (by decide) ⟨["src/**"], rfl⟩ rfl
    (fun b hb => RawValue.noConfusion hb)

/-- Witness instantiating C10 with the misspelled key ignoreWhitespace:
no error, no effect, defaults in force. -/
theorem c10_unrecognized_keys_ignored_witness :
    parseGroupAux 1 false (.obj (c10front ++ ("ignoreWhitespace", .bool true) :: [])) =
      parseGroupAux 1 false (.obj (c10front ++ [])) ∧
    c10g.countTowardMetric = true ∧ c10g.ignoreWhitespace = false := by
  have h := c10_unrecognized_keys_ignored false 1 "ignoreWhitespace" (.bool true) c10front []
    (by decide) (by decide) (by decide) (by decide)
  refine ⟨h.1, ?_, ?_⟩
  · exact (h.2 c10g rfl).1 rfl
  · exact (h.2 c10g rfl).2 rfl

end LinesChanged
